import Mathlib

/-!
# Verification of MobilityNebula components

Shallow embedding of selected components of the MobilityNebula repository:

* the `TEMPORAL_SEQUENCE` aggregation physical function
  (`TemporalSequenceAggregationPhysicalFunction.cpp`): `reset`, `lift`,
  `combine`, `lower`, and its registry registrar;
* the CSV-streaming ordering filter (`iter_filtered_csv_lines` from the TCP
  CSV server script), global order scope;
* the registry registrars of the temporal geometry physical functions
  (`TemporalIntersectsGeometryPhysicalFunction.cpp`,
  `TemporalAtStBoxPhysicalFunction.cpp`) and the error handling of their
  execute paths;
* the JSON sink's base64 encoder (`JSONFormat.cpp`, `encodeBase64`).
-/

namespace MobilityNebula

/-! ## Temporal sequence aggregation

The aggregation state is a `PagedVector` holding one record per `lift` call;
each record carries the three fields `lon`, `lat`, `timestamp`.  `double`
coordinate fields are modelled as rationals (the aggregation never computes
with them, it only stores and counts them); the `int64_t` timestamp is `Int`.
The PagedVector is modelled as the list of records it holds, in insertion
order.
-/

/-- One record stored by `TemporalSequenceAggregationPhysicalFunction::lift`
(the `lon`, `lat`, `timestamp` fields written into the paged vector). -/
structure TSRecord where
  lon : ℚ
  lat : ℚ
  timestamp : Int
  deriving DecidableEq, Repr

/-- The aggregation state backing the temporal sequence aggregate: the
`PagedVector` in the aggregation state memory area, modelled as the list of
stored records in insertion order. -/
abbrev AggState : Type := List TSRecord

/-- `TemporalSequenceAggregationPhysicalFunction::reset`: placement-news a
fresh (empty) `PagedVector` into the state memory area. -/
def resetState : AggState := []

/-- `TemporalSequenceAggregationPhysicalFunction::lift`: evaluates the three
field functions on the input record and appends the resulting
`{lon, lat, timestamp}` record to the paged vector (`writeRecord`). -/
def lift (s : AggState) (r : TSRecord) : AggState := s ++ [r]

/-- `TemporalSequenceAggregationPhysicalFunction::combine`: calls
`vector1->copyFrom(*vector2)`.  The call site passes `vector2` as
`const Nautilus::Interface::PagedVector*` and its comment states that the
content of the second paged vector is copied to the first, so the second
state is not modified.  The result is the pair (state 1 after the call,
state 2 after the call). -/
def combine (s1 s2 : AggState) : AggState × AggState := (s1 ++ s2, s2)

/-- `PagedVector::getTotalNumberOfEntries` of the state's paged vector
(`size_t`, modelled as `Nat`). -/
def numberOfEntries (s : AggState) : Nat := s.length

/-- The point counter of `TemporalSequenceAggregationPhysicalFunction::lower`:
starts at 0 and is incremented once per record iterated from the paged
vector (the `int64_t` counter is modelled as `Nat`; it only counts up from
zero, one per stored record). -/
def pointCount (s : AggState) : Nat := s.foldl (fun c _ => c + 1) 0

/-- `TemporalSequenceAggregationPhysicalFunction::lower`: if the paged vector
is empty, writes the fixed string `"BINARY(0)"` into the result field;
otherwise iterates the stored records, counts them, and writes
`sprintf("BINARY(%lld)", count)`. -/
def lower (s : AggState) : String :=
  if numberOfEntries s = 0 then "BINARY(0)"
  else "BINARY(" ++ toString (pointCount s) ++ ")"

/-- Building an aggregation state by `reset` followed by one `lift` per input
record, in order. -/
def buildState (rs : List TSRecord) : AggState := rs.foldl lift resetState

/-- The reference (non-incremental) point count over a batch of records. -/
def referenceCount (rs : List TSRecord) : Nat := rs.length

theorem pointCount_go (s : List TSRecord) :
    ∀ n : Nat, s.foldl (fun c _ => c + 1) n = n + s.length := by
  induction s with
  | nil => intro n; simp
  | cons r rest ih =>
      intro n
      simp only [List.foldl_cons, List.length_cons, ih]
      omega

theorem pointCount_eq_length (s : AggState) : pointCount s = s.length := by
  unfold pointCount
  rw [pointCount_go]
  omega

theorem foldl_lift_eq (acc : AggState) (l : List TSRecord) :
    l.foldl lift acc = acc ++ l := by
  induction l generalizing acc with
  | nil => simp [List.foldl_nil]
  | cons x xs ihx => simp [List.foldl_cons, lift, ihx]

theorem buildState_eq (rs : List TSRecord) : buildState rs = rs := by
  unfold buildState resetState
  simp [foldl_lift_eq]

theorem lower_eq_binary_length (s : AggState) :
    lower s = "BINARY(" ++ toString s.length ++ ")" := by
  unfold lower numberOfEntries
  by_cases h : s.length = 0
  · simp only [h, if_pos rfl]
    rfl
  · simp [h, pointCount_eq_length]

/-! ## CSV-streaming ordering filter (`iter_filtered_csv_lines`)

The TCP CSV server script filters the rows of a CSV file so that the stream
delivered downstream has increasing timestamps.  We model the global order
scope (`order_scope = "global"`, the default, with no key columns
configured).

A row, as seen by the ordering check, either has a timestamp column that
parsed as a number, or it does not (the timestamp column index is out of
range, or neither the integer nor the float parse succeeded); in the latter
case the row is forwarded as-is without consulting or updating the last
forwarded timestamp (the script's conservative behavior).  Rows the reader
skips entirely (the header when `skip_header` is set, and empty rows) never
reach the ordering check and are not part of the model's input.

The script's timestamps are Python floats: `float(ts_raw)` also accepts
`"nan"`, `"inf"` and `"-inf"`, so the timestamp domain is modelled as
`FloatVal` — NaN, the two infinities, and finite values (rationals; the
filter only compares timestamps, never computes with them, so rounding
plays no role) — with the IEEE comparison semantics in which every
comparison against NaN is false.  The initial
`last_ts_global = float("-inf")` is `FloatVal.negInf`.  An integer
restriction of the model (exact for rows whose timestamps are integers,
as in the sequence-number permutation claims) follows the float model,
together with a proof that the two agree on integer-timestamp rows.
-/

/-- A Python float as compared by the ordering filter: NaN, an infinity, or
a finite value (modelled as a rational; only compared, never computed
with). -/
inductive FloatVal where
  | nan
  | negInf
  | posInf
  | fin (q : ℚ)
  deriving DecidableEq, Repr

/-- IEEE `<=` on `FloatVal`: false whenever either side is NaN. -/
def fle : FloatVal → FloatVal → Bool
  | .nan, _ => false
  | _, .nan => false
  | .negInf, _ => true
  | _, .posInf => true
  | _, .negInf => false
  | .posInf, _ => false
  | .fin a, .fin b => a ≤ b

/-- IEEE `<` on `FloatVal`: false whenever either side is NaN. -/
def flt : FloatVal → FloatVal → Bool
  | .nan, _ => false
  | _, .nan => false
  | .negInf, .negInf => false
  | .negInf, _ => true
  | _, .negInf => false
  | .posInf, _ => false
  | _, .posInf => true
  | .fin a, .fin b => a < b

/-- One CSV row as seen by the ordering filter after timestamp extraction. -/
inductive CsvRowF where
  /-- The timestamp column is missing or does not parse as a number;
  the row is forwarded conservatively. -/
  | unparsed (payload : String)
  /-- The timestamp column parsed as the float `ts`. -/
  | parsed (ts : FloatVal) (payload : String)
  deriving DecidableEq, Repr

/-- One pass of `iter_filtered_csv_lines` under global order scope, starting
from the given `last_ts_global` value (`FloatVal.negInf` initially): rows
whose timestamp does not parse are yielded as-is; a row whose timestamp
satisfies `ts_val <= last_ts_global` (IEEE comparison) is counted as
filtered and dropped; any other row is yielded and `last_ts_global` is
updated to its timestamp. -/
def runGlobalF (last : FloatVal) : List CsvRowF → List CsvRowF
  | [] => []
  | CsvRowF.unparsed p :: rs => CsvRowF.unparsed p :: runGlobalF last rs
  | CsvRowF.parsed t p :: rs =>
      if fle t last then runGlobalF last rs
      else CsvRowF.parsed t p :: runGlobalF t rs

/-- The timestamps of the rows of a stream whose timestamp column parsed. -/
def parsedTs (rows : List CsvRowF) : List FloatVal :=
  rows.filterMap fun r =>
    match r with
    | CsvRowF.parsed t _ => some t
    | CsvRowF.unparsed _ => none

theorem fle_false_flt (a b : FloatVal) (ha : a ≠ .nan) (hb : b ≠ .nan)
    (h : fle a b = false) : flt b a = true := by
  cases a <;> cases b <;> simp_all [fle, flt]

theorem flt_trans (a b c : FloatVal) (h1 : flt a b = true) (h2 : flt b c = true) :
    flt a c = true := by
  cases a <;> cases b <;> cases c <;> simp_all [flt]
  exact lt_trans h1 h2

theorem parsedTs_runGlobalF_gt (rows : List CsvRowF) :
    ∀ last : FloatVal, last ≠ .nan → FloatVal.nan ∉ parsedTs rows →
      ∀ t ∈ parsedTs (runGlobalF last rows), flt last t = true := by
  induction rows with
  | nil => intro last _ _ t ht; simp [runGlobalF, parsedTs] at ht
  | cons r rs ih =>
      intro last hlast hnan t ht
      cases r with
      | unparsed p =>
          simp only [parsedTs, List.filterMap_cons] at hnan
          simp only [runGlobalF, parsedTs, List.filterMap_cons] at ht
          exact ih last hlast hnan t ht
      | parsed t0 p =>
          simp only [parsedTs, List.filterMap_cons, List.mem_cons, not_or] at hnan
          have ht0 : t0 ≠ FloatVal.nan := Ne.symm hnan.1
          have hnan' : FloatVal.nan ∉ parsedTs rs := hnan.2
          by_cases hf : fle t0 last = true
          · simp only [runGlobalF, if_pos hf] at ht
            exact ih last hlast hnan' t ht
          · have hf' : fle t0 last = false := by
              revert hf; cases fle t0 last <;> simp
            simp only [runGlobalF, if_neg hf, parsedTs, List.filterMap_cons] at ht
            rcases List.mem_cons.mp ht with heq | hmem
            · rw [heq]
              exact fle_false_flt t0 last ht0 hlast hf'
            · exact flt_trans last t0 t (fle_false_flt t0 last ht0 hlast hf')
                (ih t0 ht0 hnan' t hmem)

theorem parsedTs_runGlobalF_pairwise (rows : List CsvRowF) :
    ∀ last : FloatVal, last ≠ .nan → FloatVal.nan ∉ parsedTs rows →
      List.Pairwise (fun a b => flt a b = true) (parsedTs (runGlobalF last rows)) := by
  induction rows with
  | nil => intro last _ _; simp [runGlobalF, parsedTs]
  | cons r rs ih =>
      intro last hlast hnan
      cases r with
      | unparsed p =>
          simp only [parsedTs, List.filterMap_cons] at hnan
          simp only [runGlobalF, parsedTs, List.filterMap_cons]
          exact ih last hlast hnan
      | parsed t0 p =>
          simp only [parsedTs, List.filterMap_cons, List.mem_cons, not_or] at hnan
          have ht0 : t0 ≠ FloatVal.nan := Ne.symm hnan.1
          have hnan' : FloatVal.nan ∉ parsedTs rs := hnan.2
          by_cases hf : fle t0 last = true
          · simp only [runGlobalF, if_pos hf]
            exact ih last hlast hnan'
          · simp only [runGlobalF, if_neg hf, parsedTs, List.filterMap_cons]
            exact List.pairwise_cons.mpr
              ⟨fun b hb => parsedTs_runGlobalF_gt rs t0 ht0 hnan' b hb,
               ih t0 ht0 hnan'⟩

/-- One CSV row of the integer restriction: a row whose timestamp column
holds an integer (the sequence-number permutation claims live here), or no
parseable timestamp at all. -/
inductive CsvRow where
  /-- The timestamp column is missing or does not parse as a number;
  the row is forwarded conservatively. -/
  | unparsed (payload : String)
  /-- The timestamp column parsed as the integer `ts`. -/
  | parsed (ts : Int) (payload : String)
  deriving DecidableEq, Repr

/-- The integer restriction of `runGlobalF` (`none` = the initial
`float("-inf")`, under which any integer timestamp passes the check, since
`t <= -inf` is false for finite `t`); exact for integer-timestamp rows by
`runGlobalF_agrees_int` below. -/
def runGlobal (last : Option Int) : List CsvRow → List CsvRow
  | [] => []
  | CsvRow.unparsed p :: rs => CsvRow.unparsed p :: runGlobal last rs
  | CsvRow.parsed t p :: rs =>
      match last with
      | none => CsvRow.parsed t p :: runGlobal (some t) rs
      | some l =>
          if t ≤ l then runGlobal (some l) rs
          else CsvRow.parsed t p :: runGlobal (some t) rs

/-- The timestamps of the rows of a stream whose timestamp column parsed. -/
def forwardedTs (rows : List CsvRow) : List Int :=
  rows.filterMap fun r =>
    match r with
    | CsvRow.parsed t _ => some t
    | CsvRow.unparsed _ => none

/-- Embedding of an integer-timestamp row into the float model. -/
def rowOfInt : CsvRow → CsvRowF
  | CsvRow.unparsed p => CsvRowF.unparsed p
  | CsvRow.parsed t p => CsvRowF.parsed (FloatVal.fin (t : ℚ)) p

/-- Embedding of the integer restriction's threshold into the float model
(`none` = the initial `float("-inf")`). -/
def lastOfInt : Option Int → FloatVal
  | none => FloatVal.negInf
  | some l => FloatVal.fin (l : ℚ)

/-- On integer-timestamp rows the float filter and its integer restriction
agree, so the integer model is exact within its domain. -/
theorem runGlobalF_agrees_int (rows : List CsvRow) :
    ∀ last : Option Int,
      runGlobalF (lastOfInt last) (rows.map rowOfInt)
        = (runGlobal last rows).map rowOfInt := by
  induction rows with
  | nil => intro last; cases last <;> rfl
  | cons r rs ih =>
      intro last
      cases r with
      | unparsed p =>
          simp only [List.map_cons, rowOfInt, runGlobalF, runGlobal]
          exact congrArg _ (ih last)
      | parsed t p =>
          cases last with
          | none =>
              have hf : fle (FloatVal.fin (t : ℚ)) FloatVal.negInf = false := by
                simp [fle]
              simp only [List.map_cons, rowOfInt, lastOfInt, runGlobal, runGlobalF,
                hf, Bool.false_eq_true, if_false]
              exact congrArg _ (ih (some t))
          | some l =>
              simp only [List.map_cons, rowOfInt, lastOfInt, runGlobal, runGlobalF]
              by_cases hle : t ≤ l
              · have hf : fle (FloatVal.fin (t : ℚ)) (FloatVal.fin (l : ℚ)) = true := by
                  simp only [fle, decide_eq_true_eq]
                  exact_mod_cast hle
                rw [if_pos hf, if_pos hle]
                exact ih (some l)
              · have hf : fle (FloatVal.fin (t : ℚ)) (FloatVal.fin (l : ℚ)) = false := by
                  simp only [fle, decide_eq_false_iff_not]
                  exact_mod_cast hle
                rw [if_neg (by simp [hf]), if_neg hle]
                exact congrArg _ (ih (some t))

theorem runGlobal_sublist (rows : List CsvRow) :
    ∀ last, (runGlobal last rows).Sublist rows := by
  induction rows with
  | nil => intro last; simp [runGlobal]
  | cons r rs ih =>
      intro last
      cases r with
      | unparsed p => exact (ih last).cons₂ _
      | parsed t p =>
          cases last with
          | none => exact (ih (some t)).cons₂ _
          | some l =>
              by_cases hle : t ≤ l
              · simpa [runGlobal, if_pos hle] using (ih (some l)).cons (CsvRow.parsed t p)
              · simpa [runGlobal, if_neg hle] using (ih (some t)).cons₂ (CsvRow.parsed t p)

/-- A strictly increasing run of parsed rows passes the filter unchanged
provided its first timestamp clears the current `last_ts_global`. -/
theorem runGlobal_of_chain (ts : List (Int × String)) :
    ∀ last : Option Int,
      List.Chain' (· < ·) (ts.map Prod.fst) →
      (∀ h, (ts.map Prod.fst).head? = some h → ∀ l, last = some l → l < h) →
      runGlobal last (ts.map fun x => CsvRow.parsed x.1 x.2)
        = ts.map fun x => CsvRow.parsed x.1 x.2 := by
  induction ts with
  | nil => intro last _ _; rfl
  | cons x rest ih =>
      intro last hchain hhead
      have hrest : List.Chain' (· < ·) (rest.map Prod.fst) :=
        (List.chain'_cons'.mp hchain).2
      have hnext : ∀ h, (rest.map Prod.fst).head? = some h →
          ∀ l, some x.1 = some l → l < h := by
        intro h hh l hl
        injection hl with hl
        subst hl
        exact (List.chain'_cons'.mp hchain).1 h hh
      cases last with
      | none =>
          simp only [List.map_cons, runGlobal]
          rw [ih (some x.1) hrest hnext]
      | some l =>
          have hlt : l < x.1 := by
            apply hhead x.1 _ l rfl
            simp
          simp only [List.map_cons, runGlobal, if_neg (not_le.mpr hlt)]
          rw [ih (some x.1) hrest hnext]

/-! ## Physical function registrars

Registrars receive a list of already-constructed child physical functions
and either return a constructed physical function, throw a
`std::runtime_error` (which propagates to the caller), or hit a fatal
`PRECONDITION` violation (which aborts instead of returning).  The internal
structure of a child `PhysicalFunction` is irrelevant to registration —
registrars only count the children and move them into the constructed
object — so a child function is modelled as an opaque token.
-/

/-- An opaque already-compiled child `PhysicalFunction` handed to a
registrar; registration only counts and stores such functions. -/
structure PhysicalFunction where
  token : Nat
  deriving DecidableEq, Repr

/-- `PhysicalFunctionRegistryArguments`: the part consulted by the
registrars under study, namely the `childFunctions` vector. -/
structure PhysicalFunctionRegistryArguments where
  childFunctions : List PhysicalFunction
  deriving DecidableEq, Repr

/-- `AggregationPhysicalFunctionRegistryArguments`: the argument bundle of
an aggregation registrar.  The `TEMPORAL_SEQUENCE` registrar never reads its
argument (the parameter is unnamed in the source), so only the child
function list is modelled. -/
structure AggregationPhysicalFunctionRegistryArguments where
  childFunctions : List PhysicalFunction
  deriving DecidableEq, Repr

/-- Outcome of a registrar call. -/
inductive RegistrarOutcome (α : Type) where
  /-- The registrar returned a constructed function. -/
  | ok (value : α)
  /-- The registrar threw a `std::runtime_error` with this message;
  the exception propagates to the caller. -/
  | thrown (msg : String)
  /-- A `PRECONDITION(false, ...)` fired: a fatal programming-error abort,
  the call never returns. -/
  | preconditionViolation (msg : String)
  deriving DecidableEq, Repr

/-- Placeholder for a constructed `TEMPORAL_SEQUENCE` aggregation physical
function; the registrar under study never constructs one. -/
structure ConstructedAggregationFunction where
  token : Nat
  deriving DecidableEq, Repr

/-- `AggregationPhysicalFunctionGeneratedRegistrar::RegisterTemporalSequenceAggregationPhysicalFunction`:
unconditionally throws `std::runtime_error`. -/
def RegisterTemporalSequenceAggregationPhysicalFunction
    (_ : AggregationPhysicalFunctionRegistryArguments) :
    RegistrarOutcome ConstructedAggregationFunction :=
  RegistrarOutcome.thrown
    ("TEMPORAL_SEQUENCE aggregation cannot be created through the registry. "
      ++ "It requires three field functions (longitude, latitude, timestamp) ")

/-- `TemporalIntersectsGeometryPhysicalFunction`: stores its child parameter
functions and whether it was built through the 6-parameter
(temporal-temporal) constructor. -/
structure TemporalIntersectsGeometryPhysicalFunction where
  isTemporal6Param : Bool
  parameterFunctions : List PhysicalFunction
  deriving DecidableEq, Repr

/-- The 4-parameter constructor (temporal-static intersection). -/
def mkTemporalIntersects4 (lon1 lat1 ts1 staticGeom : PhysicalFunction) :
    TemporalIntersectsGeometryPhysicalFunction :=
  ⟨false, [lon1, lat1, ts1, staticGeom]⟩

/-- The 6-parameter constructor (temporal-temporal intersection). -/
def mkTemporalIntersects6 (lon1 lat1 ts1 lon2 lat2 ts2 : PhysicalFunction) :
    TemporalIntersectsGeometryPhysicalFunction :=
  ⟨true, [lon1, lat1, ts1, lon2, lat2, ts2]⟩

/-- `PhysicalFunctionGeneratedRegistrar::RegisterTemporalIntersectsGeometryPhysicalFunction`:
accepts exactly 4 or 6 child functions; any other count hits
`PRECONDITION(false, ...)`. -/
def RegisterTemporalIntersectsGeometryPhysicalFunction
    (args : PhysicalFunctionRegistryArguments) :
    RegistrarOutcome TemporalIntersectsGeometryPhysicalFunction :=
  if h4 : args.childFunctions.length = 4 then
    RegistrarOutcome.ok (mkTemporalIntersects4
      (args.childFunctions.get ⟨0, by omega⟩)
      (args.childFunctions.get ⟨1, by omega⟩)
      (args.childFunctions.get ⟨2, by omega⟩)
      (args.childFunctions.get ⟨3, by omega⟩))
  else if h6 : args.childFunctions.length = 6 then
    RegistrarOutcome.ok (mkTemporalIntersects6
      (args.childFunctions.get ⟨0, by omega⟩)
      (args.childFunctions.get ⟨1, by omega⟩)
      (args.childFunctions.get ⟨2, by omega⟩)
      (args.childFunctions.get ⟨3, by omega⟩)
      (args.childFunctions.get ⟨4, by omega⟩)
      (args.childFunctions.get ⟨5, by omega⟩))
  else
    RegistrarOutcome.preconditionViolation
      "TemporalIntersectsGeometryPhysicalFunction requires 4 or 6 child functions"

/-- `TemporalAtStBoxPhysicalFunction`: stores its child parameter functions
and whether the optional border-inclusive parameter was supplied. -/
structure TemporalAtStBoxPhysicalFunction where
  hasBorderParam : Bool
  parameterFunctions : List PhysicalFunction
  deriving DecidableEq, Repr

/-- The 4-parameter constructor (no border-inclusive flag). -/
def mkTemporalAtStBox4 (lon lat ts stbox : PhysicalFunction) :
    TemporalAtStBoxPhysicalFunction :=
  ⟨false, [lon, lat, ts, stbox]⟩

/-- The 5-parameter constructor (with border-inclusive flag). -/
def mkTemporalAtStBox5 (lon lat ts stbox border : PhysicalFunction) :
    TemporalAtStBoxPhysicalFunction :=
  ⟨true, [lon, lat, ts, stbox, border]⟩

/-- `PhysicalFunctionGeneratedRegistrar::RegisterTemporalAtStBoxPhysicalFunction`:
accepts exactly 4 or 5 child functions; any other count hits
`PRECONDITION(false, ...)`. -/
def RegisterTemporalAtStBoxPhysicalFunction
    (args : PhysicalFunctionRegistryArguments) :
    RegistrarOutcome TemporalAtStBoxPhysicalFunction :=
  if h4 : args.childFunctions.length = 4 then
    RegistrarOutcome.ok (mkTemporalAtStBox4
      (args.childFunctions.get ⟨0, by omega⟩)
      (args.childFunctions.get ⟨1, by omega⟩)
      (args.childFunctions.get ⟨2, by omega⟩)
      (args.childFunctions.get ⟨3, by omega⟩))
  else if h5 : args.childFunctions.length = 5 then
    RegistrarOutcome.ok (mkTemporalAtStBox5
      (args.childFunctions.get ⟨0, by omega⟩)
      (args.childFunctions.get ⟨1, by omega⟩)
      (args.childFunctions.get ⟨2, by omega⟩)
      (args.childFunctions.get ⟨3, by omega⟩)
      (args.childFunctions.get ⟨4, by omega⟩))
  else
    RegistrarOutcome.preconditionViolation
      "TemporalAtStBoxPhysicalFunction requires 4 or 5 child functions"

/-! ## JSON sink base64 encoder (`JSONFormat.cpp`)

`encodeBase64` encodes a byte string.  Bytes (`unsigned char`) are modelled
as `Nat` with an explicit `% 256` at the `static_cast<unsigned char>` points;
the output is the list of characters pushed onto the result string. -/

/-- The `kAlphabet` table of `encodeBase64`. -/
def kAlphabet : List Char :=
  "ABCDEFGHIJKLMNOPQRSTUVWXYZabcdefghijklmnopqrstuvwxyz0123456789+/".toList

/-- The encoding loop of `encodeBase64`: full 3-byte blocks while at least
three bytes remain (`while (idx + 2 < size)`), then the 1- or 2-byte tail
with `'='` padding.  `kAlphabet[(block >> k) & 0x3F]` is
`kAlphabet.getD (block / 2 ^ k % 64)`. -/
def encodeChunks : List Nat → List Char
  | b0 :: b1 :: b2 :: rest =>
      let block := b0 % 256 * 2 ^ 16 + b1 % 256 * 2 ^ 8 + b2 % 256
      kAlphabet.getD (block / 2 ^ 18 % 64) 'A' ::
      kAlphabet.getD (block / 2 ^ 12 % 64) 'A' ::
      kAlphabet.getD (block / 2 ^ 6 % 64) 'A' ::
      kAlphabet.getD (block % 64) 'A' :: encodeChunks rest
  | [b0, b1] =>
      let block := b0 % 256 * 2 ^ 16 + b1 % 256 * 2 ^ 8
      [kAlphabet.getD (block / 2 ^ 18 % 64) 'A',
       kAlphabet.getD (block / 2 ^ 12 % 64) 'A',
       kAlphabet.getD (block / 2 ^ 6 % 64) 'A', '=']
  | [b0] =>
      let block := b0 % 256 * 2 ^ 16
      [kAlphabet.getD (block / 2 ^ 18 % 64) 'A',
       kAlphabet.getD (block / 2 ^ 12 % 64) 'A', '=', '=']
  | [] => []

/-- `NES::Sinks::encodeBase64`: the empty input short-circuits to the empty
output; otherwise the chunked encoding loop runs. -/
def encodeBase64 (input : List Nat) : List Char :=
  if input = [] then [] else encodeChunks input

/-- Index of a character in the base64 alphabet (used only by the reference
decoder below). -/
def decodeChar (c : Char) : Option Nat :=
  kAlphabet.findIdx? fun a => a = c

/-- Reference definition: standard (strict, RFC 4648) base64 decoding of a
padded base64 string, written from the base64 standard — not from the
repository code — in order to state the round-trip property of
`encodeBase64`. -/
def decodeBase64 : List Char → Option (List Nat)
  | [] => some []
  | c0 :: c1 :: c2 :: c3 :: rest =>
      (decodeChar c0).bind fun s0 =>
      (decodeChar c1).bind fun s1 =>
      if rest = [] ∧ c2 = '=' ∧ c3 = '=' then
        if s1 % 16 = 0 then some [s0 * 4 + s1 / 16] else none
      else if rest = [] ∧ c3 = '=' then
        (decodeChar c2).bind fun s2 =>
        if s2 % 4 = 0 then some [s0 * 4 + s1 / 16, s1 % 16 * 16 + s2 / 4]
        else none
      else
        (decodeChar c2).bind fun s2 =>
        (decodeChar c3).bind fun s3 =>
        (decodeBase64 rest).map fun bs =>
          (s0 * 4 + s1 / 16) :: (s1 % 16 * 16 + s2 / 4) :: (s2 % 4 * 64 + s3) :: bs
  | _ => none

theorem decodeChar_alphabet : ∀ j < 64, decodeChar (kAlphabet.getD j 'A') = some j := by
  decide

theorem alphabet_ne_pad : ∀ j < 64, kAlphabet.getD j 'A' ≠ '=' := by
  decide

theorem alphabet_mem : ∀ j < 64, kAlphabet.getD j 'A' ∈ kAlphabet := by
  decide

theorem encodeChunks_length (s : List Nat) :
    (encodeChunks s).length = 4 * ((s.length + 2) / 3) := by
  match s with
  | [] => simp [encodeChunks]
  | [b0] => simp [encodeChunks]
  | [b0, b1] => simp [encodeChunks]
  | b0 :: b1 :: b2 :: rest =>
      have ih := encodeChunks_length rest
      simp only [encodeChunks, List.length_cons]
      rw [ih]
      omega

theorem decode_encodeChunks (s : List Nat) (h : ∀ b ∈ s, b < 256) :
    decodeBase64 (encodeChunks s) = some s := by
  match s with
  | [] => simp [encodeChunks, decodeBase64]
  | [b0] =>
      have hb0 : b0 < 256 := h b0 (by simp)
      simp only [encodeChunks, decodeBase64]
      rw [decodeChar_alphabet _ (Nat.mod_lt _ (by omega)),
          decodeChar_alphabet _ (Nat.mod_lt _ (by omega))]
      simp only [Option.some_bind, and_self, and_true, true_and, if_true]
      rw [if_pos (by omega)]
      have : b0 % 256 * 2 ^ 16 / 2 ^ 18 % 64 * 4
          + b0 % 256 * 2 ^ 16 / 2 ^ 12 % 64 / 16 = b0 := by omega
      rw [this]
  | [b0, b1] =>
      have hb0 : b0 < 256 := h b0 (by simp)
      have hb1 : b1 < 256 := h b1 (by simp)
      simp only [encodeChunks, decodeBase64]
      rw [decodeChar_alphabet _ (Nat.mod_lt _ (by omega)),
          decodeChar_alphabet _ (Nat.mod_lt _ (by omega)),
          decodeChar_alphabet _ (Nat.mod_lt _ (by omega))]
      simp only [Option.some_bind, and_self, and_true, true_and]
      rw [if_neg (fun hcon =>
        alphabet_ne_pad _ (Nat.mod_lt _ (by omega)) hcon)]
      simp only [if_true]
      rw [if_pos (by omega)]
      have e0 : (b0 % 256 * 2 ^ 16 + b1 % 256 * 2 ^ 8) / 2 ^ 18 % 64 * 4
          + (b0 % 256 * 2 ^ 16 + b1 % 256 * 2 ^ 8) / 2 ^ 12 % 64 / 16 = b0 := by
        omega
      have e1 : (b0 % 256 * 2 ^ 16 + b1 % 256 * 2 ^ 8) / 2 ^ 12 % 64 % 16 * 16
          + (b0 % 256 * 2 ^ 16 + b1 % 256 * 2 ^ 8) / 2 ^ 6 % 64 / 4 = b1 := by
        omega
      rw [e0, e1]
  | b0 :: b1 :: b2 :: rest =>
      have hb0 : b0 < 256 := h b0 (by simp)
      have hb1 : b1 < 256 := h b1 (by simp)
      have hb2 : b2 < 256 := h b2 (by simp)
      have ih := decode_encodeChunks rest (fun b hb => h b (by simp [hb]))
      simp only [encodeChunks, decodeBase64]
      rw [decodeChar_alphabet _ (Nat.mod_lt _ (by omega)),
          decodeChar_alphabet _ (Nat.mod_lt _ (by omega)),
          decodeChar_alphabet _ (Nat.mod_lt _ (by omega)),
          decodeChar_alphabet _ (Nat.mod_lt _ (by omega))]
      simp only [Option.some_bind]
      rw [if_neg (fun hcon =>
        alphabet_ne_pad _ (Nat.mod_lt _ (by omega)) hcon.2.2)]
      rw [if_neg (fun hcon =>
        alphabet_ne_pad _ (Nat.mod_lt _ (by omega)) hcon.2)]
      simp only [ih, Option.map_some']
      have e0 : (b0 % 256 * 2 ^ 16 + b1 % 256 * 2 ^ 8 + b2 % 256) / 2 ^ 18 % 64 * 4
          + (b0 % 256 * 2 ^ 16 + b1 % 256 * 2 ^ 8 + b2 % 256) / 2 ^ 12 % 64 / 16 = b0 := by
        omega
      have e1 : (b0 % 256 * 2 ^ 16 + b1 % 256 * 2 ^ 8 + b2 % 256) / 2 ^ 12 % 64 % 16 * 16
          + (b0 % 256 * 2 ^ 16 + b1 % 256 * 2 ^ 8 + b2 % 256) / 2 ^ 6 % 64 / 4 = b1 := by
        omega
      have e2 : (b0 % 256 * 2 ^ 16 + b1 % 256 * 2 ^ 8 + b2 % 256) / 2 ^ 6 % 64 % 4 * 64
          + (b0 % 256 * 2 ^ 16 + b1 % 256 * 2 ^ 8 + b2 % 256) % 64 = b2 := by
        omega
      rw [e0, e1, e2]

theorem encodeChunks_shape (s : List Nat) :
    ∃ (body : List Char) (padLen : Nat), padLen ≤ 2 ∧
      encodeChunks s = body ++ List.replicate padLen '=' ∧
      ∀ c ∈ body, c ∈ kAlphabet := by
  match s with
  | [] => exact ⟨[], 0, by omega, rfl, by simp⟩
  | [b0] =>
      refine ⟨[kAlphabet.getD (b0 % 256 * 2 ^ 16 / 2 ^ 18 % 64) 'A',
               kAlphabet.getD (b0 % 256 * 2 ^ 16 / 2 ^ 12 % 64) 'A'], 2, by omega, rfl, ?_⟩
      intro c hc
      rcases List.mem_cons.mp hc with h | h
      · subst h; exact alphabet_mem _ (Nat.mod_lt _ (by omega))
      · rcases List.mem_cons.mp h with h | h
        · subst h; exact alphabet_mem _ (Nat.mod_lt _ (by omega))
        · simp at h
  | [b0, b1] =>
      refine ⟨[kAlphabet.getD ((b0 % 256 * 2 ^ 16 + b1 % 256 * 2 ^ 8) / 2 ^ 18 % 64) 'A',
               kAlphabet.getD ((b0 % 256 * 2 ^ 16 + b1 % 256 * 2 ^ 8) / 2 ^ 12 % 64) 'A',
               kAlphabet.getD ((b0 % 256 * 2 ^ 16 + b1 % 256 * 2 ^ 8) / 2 ^ 6 % 64) 'A'],
             1, by omega, rfl, ?_⟩
      intro c hc
      rcases List.mem_cons.mp hc with h | h
      · subst h; exact alphabet_mem _ (Nat.mod_lt _ (by omega))
      · rcases List.mem_cons.mp h with h | h
        · subst h; exact alphabet_mem _ (Nat.mod_lt _ (by omega))
        · rcases List.mem_cons.mp h with h | h
          · subst h; exact alphabet_mem _ (Nat.mod_lt _ (by omega))
          · simp at h
  | b0 :: b1 :: b2 :: rest =>
      obtain ⟨body, padLen, hpad, heq, hmem⟩ := encodeChunks_shape rest
      refine ⟨kAlphabet.getD ((b0 % 256 * 2 ^ 16 + b1 % 256 * 2 ^ 8 + b2 % 256) / 2 ^ 18 % 64) 'A' ::
              kAlphabet.getD ((b0 % 256 * 2 ^ 16 + b1 % 256 * 2 ^ 8 + b2 % 256) / 2 ^ 12 % 64) 'A' ::
              kAlphabet.getD ((b0 % 256 * 2 ^ 16 + b1 % 256 * 2 ^ 8 + b2 % 256) / 2 ^ 6 % 64) 'A' ::
              kAlphabet.getD ((b0 % 256 * 2 ^ 16 + b1 % 256 * 2 ^ 8 + b2 % 256) % 64) 'A' :: body,
             padLen, hpad, ?_, ?_⟩
      · simp only [encodeChunks, List.cons_append]
        rw [heq]
      · intro c hc
        rcases List.mem_cons.mp hc with h | h
        · subst h; exact alphabet_mem _ (Nat.mod_lt _ (by omega))
        · rcases List.mem_cons.mp h with h | h
          · subst h; exact alphabet_mem _ (Nat.mod_lt _ (by omega))
          · rcases List.mem_cons.mp h with h | h
            · subst h; exact alphabet_mem _ (Nat.mod_lt _ (by omega))
            · rcases List.mem_cons.mp h with h | h
              · subst h; exact alphabet_mem _ (Nat.mod_lt _ (by omega))
              · exact hmem c h

/-! ## Temporal geometry functions: string handling and error paths

The `tgeo_at_stbox` and 4-parameter temporal-intersects lambdas operate on
the raw bytes of the geometry literal field.  Strings are modelled as
`List Char`.  STBOX bound values are `double`s obtained through
`std::stod`, which also accepts `inf`/`infinity`/`nan` (any case, signed)
and exponent notation and throws `std::out_of_range` on values outside the
double range — so STBOX bounds and the query point range over `FloatVal`
(NaN, the infinities, and exact finite rationals) and are compared with the
IEEE comparison semantics (`fle`/`flt`).  The polygon kernel instead uses
the C function `strtod`, which never throws; its coordinate values are kept
as exact rationals, since every theorem below about that kernel depends
only on the token structure of the WKT, never on a coordinate value. -/

/-- C1: `lower` on a freshly `reset` aggregation state (no `lift` calls,
zero stored records) writes exactly the empty sentinel string
`"BINARY(0)"` into the result field; the function is total on that state
(no error, no read of uninitialized record data — the fresh paged vector
holds no entries). -/
theorem claim_C1_empty_lower_sentinel : lower resetState = "BINARY(0)" := rfl

/-- C2 counterexample: the ordering component of the repository is a
drop-based filter, not a hold-and-release sequencer.  For the permutation
`[1, 0]` of the sequence numbers `0..1`, the released timestamp sequence is
`[1]` — the out-of-order item `1` is released immediately and the
gap-filling item `0` is dropped — so the released sequence is not
`0..N-1` in ascending order. -/
theorem claim_C2_counterexample :
    runGlobal none [CsvRow.parsed 1 "r1", CsvRow.parsed 0 "r0"]
        = [CsvRow.parsed 1 "r1"]
    ∧ forwardedTs (runGlobal none [CsvRow.parsed 1 "r1", CsvRow.parsed 0 "r0"])
        ≠ [0, 1] := by
  constructor
  · decide
  · decide

/-- C2 (amended): the ordering component releases items in arrival order
(the output is a sublist of the input — nothing is held back and re-released
later); an item arriving with a timestamp greater than the last released one
is released immediately (and the expected threshold advances to it) rather
than being held; and the released sequence equals the full input exactly
when the input timestamps are already strictly ascending. -/
theorem claim_C2_amended_release_order :
    (∀ rows : List CsvRow, (runGlobal none rows).Sublist rows)
    ∧ (∀ (l t : Int) (p : String) (rs : List CsvRow), l < t →
        runGlobal (some l) (CsvRow.parsed t p :: rs)
          = CsvRow.parsed t p :: runGlobal (some t) rs)
    ∧ (∀ ts : List (Int × String), List.Chain' (· < ·) (ts.map Prod.fst) →
        runGlobal none (ts.map fun x => CsvRow.parsed x.1 x.2)
          = ts.map fun x => CsvRow.parsed x.1 x.2) := by
  refine ⟨fun rows => runGlobal_sublist rows none, ?_, ?_⟩
  · intro l t p rs h
    simp only [runGlobal]
    rw [if_neg (by omega)]
  · intro ts hchain
    exact runGlobal_of_chain ts none hchain
      (fun h hh l hl => Option.noConfusion hl)

/-- Witness for C2 (amended) at concrete inputs. -/
theorem claim_C2_amended_release_order_witness :
    (runGlobal none [CsvRow.parsed 3 "x", CsvRow.parsed 7 "y"]).Sublist
        [CsvRow.parsed 3 "x", CsvRow.parsed 7 "y"]
    ∧ runGlobal (some 0) (CsvRow.parsed 5 "z" :: [])
        = CsvRow.parsed 5 "z" :: runGlobal (some 5) []
    ∧ runGlobal none ([(0, "a"), (1, "b"), (2, "c")].map
          fun x => CsvRow.parsed x.1 x.2)
        = [(0, "a"), (1, "b"), (2, "c")].map fun x => CsvRow.parsed x.1 x.2 :=
  ⟨claim_C2_amended_release_order.1 _,
   claim_C2_amended_release_order.2.1 0 5 "z" [] (by decide),
   claim_C2_amended_release_order.2.2 [(0, "a"), (1, "b"), (2, "c")]
     (by simp [List.chain'_cons])⟩

/-- C3 counterexample: `combine` copies the second state's records into the
first (the call site passes the source paged vector as `const` and copies
its content), so after `combine(A, B)` with `A` empty and `B` holding one
lifted record, `B` still holds its record: a subsequent `lower` of `B`
alone yields `"BINARY(1)"`, not the zero-record sentinel `"BINARY(0)"`
claimed by "valid but empty". -/
theorem claim_C3_counterexample :
    (combine resetState (lift resetState ⟨0, 0, 0⟩)).2 ≠ ([] : AggState)
    ∧ lower (combine resetState (lift resetState ⟨0, 0, 0⟩)).2 ≠ "BINARY(0)" := by
  constructor
  · decide
  · decide

/-- C3 (amended): after `combine(A, B)`, state `A` holds the union (the
concatenation) of both states' records, and state `B` is left valid but
unchanged — it still holds its own records, so a subsequent finalize of `B`
alone observes `B`'s original record count, not zero. -/
theorem claim_C3_amended_combine_copies :
    ∀ A B : AggState,
      (combine A B).1 = A ++ B
      ∧ (combine A B).2 = B
      ∧ lower (combine A B).2 = lower B
      ∧ numberOfEntries (combine A B).1 = numberOfEntries A + numberOfEntries B := by
  intro A B
  refine ⟨rfl, rfl, rfl, ?_⟩
  simp [combine, numberOfEntries]

/-- C4: merge associativity of the temporal sequence aggregate.  For three
partial states built from pairwise disjoint record sets,
`lower(combine(combine(A,B),C))` equals `lower(combine(A,combine(B,C)))`
(taking the first argument's state after each `combine`, as in the
source, where `combine` merges into its first argument), both equal the
aggregate computed over the union of all records, and the finalized point
count of the combined state is the sum of the constituent states' point
counts. -/
theorem claim_C4_merge_associativity :
    ∀ la lb lc : List TSRecord,
      la.Disjoint lb → la.Disjoint lc → lb.Disjoint lc →
      lower (combine (combine (buildState la) (buildState lb)).1 (buildState lc)).1
          = lower (combine (buildState la) (combine (buildState lb) (buildState lc)).1).1
      ∧ lower (combine (combine (buildState la) (buildState lb)).1 (buildState lc)).1
          = lower (buildState (la ++ lb ++ lc))
      ∧ pointCount (combine (combine (buildState la) (buildState lb)).1 (buildState lc)).1
          = pointCount (buildState la) + pointCount (buildState lb)
            + pointCount (buildState lc) := by
  intro la lb lc _ _ _
  refine ⟨?_, ?_, ?_⟩
  · simp only [combine, buildState_eq, List.append_assoc]
  · simp only [combine, buildState_eq]
  · simp only [combine, buildState_eq, pointCount_eq_length, List.length_append]

/-- Witness for C4 at three concrete disjoint one-record states. -/
theorem claim_C4_merge_associativity_witness :
    lower (combine (combine (buildState [⟨1, 1, 1⟩]) (buildState [⟨2, 2, 2⟩])).1
        (buildState [⟨3, 3, 3⟩])).1
      = lower (combine (buildState [⟨1, 1, 1⟩])
          (combine (buildState [⟨2, 2, 2⟩]) (buildState [⟨3, 3, 3⟩])).1).1 :=
  (claim_C4_merge_associativity [⟨1, 1, 1⟩] [⟨2, 2, 2⟩] [⟨3, 3, 3⟩]
    (by intro a ha hb; simp at ha; subst ha; revert hb; decide)
    (by intro a ha hb; simp at ha; subst ha; revert hb; decide)
    (by intro a ha hb; simp at ha; subst ha; revert hb; decide)).1

/-- C5: round trip.  `reset` followed by `K ≥ 1` `lift` calls and then
`lower` yields exactly the string `"BINARY(K)"` where `K` is the number of
lifted records, and the incremental point count agrees with the reference
(non-incremental) count over the same records. -/
theorem claim_C5_round_trip :
    ∀ rs : List TSRecord, 1 ≤ rs.length →
      lower (buildState rs) = "BINARY(" ++ toString rs.length ++ ")"
      ∧ pointCount (buildState rs) = referenceCount rs := by
  intro rs _
  constructor
  · rw [buildState_eq, lower_eq_binary_length]
  · rw [buildState_eq, pointCount_eq_length]
    rfl

/-- Witness for C5 with two lifted records. -/
theorem claim_C5_round_trip_witness :
    1 ≤ ([⟨1, 1, 1⟩, ⟨2, 2, 2⟩] : List TSRecord).length
    ∧ lower (buildState [⟨1, 1, 1⟩, ⟨2, 2, 2⟩])
        = "BINARY(" ++ toString ([⟨1, 1, 1⟩, ⟨2, 2, 2⟩] : List TSRecord).length ++ ")" :=
  ⟨by decide, (claim_C5_round_trip [⟨1, 1, 1⟩, ⟨2, 2, 2⟩] (by decide)).1⟩

/-- C6 counterexample: a row whose timestamp column is `"nan"` parses via
`float()` and breaks the strictly-increasing guarantee.  For input
timestamps `[5, nan, 3]` every IEEE comparison against the threshold is
false, so all three rows are forwarded (the NaN row also poisons
`last_ts_global`), and the forwarded parsed timestamps `[5, nan, 3]` are
not strictly increasing — `3` is forwarded after `5`. -/
theorem claim_C6_counterexample :
    runGlobalF FloatVal.negInf
        [CsvRowF.parsed (FloatVal.fin 5) "a", CsvRowF.parsed FloatVal.nan "b",
         CsvRowF.parsed (FloatVal.fin 3) "c"]
      = [CsvRowF.parsed (FloatVal.fin 5) "a", CsvRowF.parsed FloatVal.nan "b",
         CsvRowF.parsed (FloatVal.fin 3) "c"]
    ∧ parsedTs (runGlobalF FloatVal.negInf
        [CsvRowF.parsed (FloatVal.fin 5) "a", CsvRowF.parsed FloatVal.nan "b",
         CsvRowF.parsed (FloatVal.fin 3) "c"])
      = [FloatVal.fin 5, FloatVal.nan, FloatVal.fin 3]
    ∧ ¬ List.Pairwise (fun a b => flt a b = true)
        (parsedTs (runGlobalF FloatVal.negInf
          [CsvRowF.parsed (FloatVal.fin 5) "a", CsvRowF.parsed FloatVal.nan "b",
           CsvRowF.parsed (FloatVal.fin 3) "c"])) := by
  refine ⟨by decide, by decide, ?_⟩
  intro hp
  rw [show parsedTs (runGlobalF FloatVal.negInf
      [CsvRowF.parsed (FloatVal.fin 5) "a", CsvRowF.parsed FloatVal.nan "b",
       CsvRowF.parsed (FloatVal.fin 3) "c"])
    = [FloatVal.fin 5, FloatVal.nan, FloatVal.fin 3] from by decide] at hp
  exact absurd ((List.pairwise_cons.mp hp).1 FloatVal.nan (by simp)) (by decide)

/-- C6 (amended): under global order scope, a row whose timestamp parses to
NaN is forwarded and resets the threshold (IEEE comparisons against NaN are
false both ways), so the guarantee holds only NaN-free: for every input row
sequence none of whose parsed timestamps is NaN, the timestamps of the
forwarded parsed rows form a strictly increasing sequence (in the IEEE
order, starting from the `float("-inf")` threshold), and every row whose
timestamp is less than or equal to the current threshold is dropped while
processing continues normally on the remaining rows (a non-fatal
condition — the filter is a total function). -/
theorem claim_C6_amended_no_nan_increasing :
    (∀ rows : List CsvRowF, FloatVal.nan ∉ parsedTs rows →
        List.Pairwise (fun a b => flt a b = true)
          (parsedTs (runGlobalF FloatVal.negInf rows)))
    ∧ ∀ (last t : FloatVal) (p : String) (rs : List CsvRowF), fle t last = true →
        runGlobalF last (CsvRowF.parsed t p :: rs) = runGlobalF last rs := by
  refine ⟨fun rows h =>
    parsedTs_runGlobalF_pairwise rows FloatVal.negInf (by decide) h, ?_⟩
  intro last t p rs h
  simp only [runGlobalF]
  rw [if_pos h]

/-- Witness for C6 (amended): a concrete NaN-free out-of-order stream, and
a concrete dropped duplicate row. -/
theorem claim_C6_amended_no_nan_increasing_witness :
    FloatVal.nan ∉ parsedTs [CsvRowF.parsed (FloatVal.fin 1) "a",
        CsvRowF.parsed (FloatVal.fin 0) "b", CsvRowF.parsed (FloatVal.fin 2) "c"]
    ∧ List.Pairwise (fun a b => flt a b = true)
        (parsedTs (runGlobalF FloatVal.negInf
          [CsvRowF.parsed (FloatVal.fin 1) "a", CsvRowF.parsed (FloatVal.fin 0) "b",
           CsvRowF.parsed (FloatVal.fin 2) "c"]))
    ∧ runGlobalF (FloatVal.fin 4)
          (CsvRowF.parsed (FloatVal.fin 4) "dup" :: [CsvRowF.parsed (FloatVal.fin 9) "d"])
        = runGlobalF (FloatVal.fin 4) [CsvRowF.parsed (FloatVal.fin 9) "d"] :=
  ⟨by decide,
   claim_C6_amended_no_nan_increasing.1 _ (by decide),
   claim_C6_amended_no_nan_increasing.2 (FloatVal.fin 4) (FloatVal.fin 4) "dup"
     [CsvRowF.parsed (FloatVal.fin 9) "d"] (by decide)⟩

/-- C8: the `TEMPORAL_SEQUENCE` aggregation registrar throws a
`std::runtime_error` for every registry argument value — it never returns a
constructed aggregation function, because the aggregate requires three
field functions that the registry path cannot supply. -/
theorem claim_C8_registry_always_throws :
    ∀ args : AggregationPhysicalFunctionRegistryArguments,
      RegisterTemporalSequenceAggregationPhysicalFunction args
          = RegistrarOutcome.thrown
              ("TEMPORAL_SEQUENCE aggregation cannot be created through the registry. "
                ++ "It requires three field functions (longitude, latitude, timestamp) ")
      ∧ ∀ f, RegisterTemporalSequenceAggregationPhysicalFunction args
          ≠ RegistrarOutcome.ok f := by
  intro args
  exact ⟨rfl, fun f h => RegistrarOutcome.noConfusion h⟩

/-- C9: registrar arity checks.  The temporal-intersects registrar hits a
fatal `PRECONDITION` violation (aborting, not returning) on every child
count other than 4 or 6, and the temporal-at-stbox registrar on every count
other than 4 or 5; for each accepted count the registrar returns a
successfully constructed function. -/
theorem claim_C9_registrar_arity :
    (∀ args : PhysicalFunctionRegistryArguments,
        args.childFunctions.length ≠ 4 → args.childFunctions.length ≠ 6 →
        RegisterTemporalIntersectsGeometryPhysicalFunction args
          = RegistrarOutcome.preconditionViolation
              "TemporalIntersectsGeometryPhysicalFunction requires 4 or 6 child functions")
    ∧ (∀ args : PhysicalFunctionRegistryArguments,
        args.childFunctions.length = 4 ∨ args.childFunctions.length = 6 →
        ∃ f, RegisterTemporalIntersectsGeometryPhysicalFunction args
          = RegistrarOutcome.ok f)
    ∧ (∀ args : PhysicalFunctionRegistryArguments,
        args.childFunctions.length ≠ 4 → args.childFunctions.length ≠ 5 →
        RegisterTemporalAtStBoxPhysicalFunction args
          = RegistrarOutcome.preconditionViolation
              "TemporalAtStBoxPhysicalFunction requires 4 or 5 child functions")
    ∧ (∀ args : PhysicalFunctionRegistryArguments,
        args.childFunctions.length = 4 ∨ args.childFunctions.length = 5 →
        ∃ f, RegisterTemporalAtStBoxPhysicalFunction args
          = RegistrarOutcome.ok f) := by
  refine ⟨?_, ?_, ?_, ?_⟩
  · intro args h4 h6
    unfold RegisterTemporalIntersectsGeometryPhysicalFunction
    rw [dif_neg h4, dif_neg h6]
  · intro args h
    rcases h with h | h
    · exact ⟨_, by
        unfold RegisterTemporalIntersectsGeometryPhysicalFunction
        rw [dif_pos h]⟩
    · exact ⟨_, by
        unfold RegisterTemporalIntersectsGeometryPhysicalFunction
        rw [dif_neg (by omega), dif_pos h]⟩
  · intro args h4 h5
    unfold RegisterTemporalAtStBoxPhysicalFunction
    rw [dif_neg h4, dif_neg h5]
  · intro args h
    rcases h with h | h
    · exact ⟨_, by
        unfold RegisterTemporalAtStBoxPhysicalFunction
        rw [dif_pos h]⟩
    · exact ⟨_, by
        unfold RegisterTemporalAtStBoxPhysicalFunction
        rw [dif_neg (by omega), dif_pos h]⟩

/-- Witness for C9: a 3-child call aborts, 4- and 6-child calls construct
for temporal-intersects; a 6-child call aborts, a 5-child call constructs
for temporal-at-stbox. -/
theorem claim_C9_registrar_arity_witness :
    RegisterTemporalIntersectsGeometryPhysicalFunction ⟨[⟨1⟩, ⟨2⟩, ⟨3⟩]⟩
        = RegistrarOutcome.preconditionViolation
            "TemporalIntersectsGeometryPhysicalFunction requires 4 or 6 child functions"
    ∧ (∃ f, RegisterTemporalIntersectsGeometryPhysicalFunction
          ⟨[⟨1⟩, ⟨2⟩, ⟨3⟩, ⟨4⟩]⟩ = RegistrarOutcome.ok f)
    ∧ RegisterTemporalAtStBoxPhysicalFunction ⟨[⟨1⟩, ⟨2⟩, ⟨3⟩, ⟨4⟩, ⟨5⟩, ⟨6⟩]⟩
        = RegistrarOutcome.preconditionViolation
            "TemporalAtStBoxPhysicalFunction requires 4 or 5 child functions"
    ∧ (∃ f, RegisterTemporalAtStBoxPhysicalFunction ⟨[⟨1⟩, ⟨2⟩, ⟨3⟩, ⟨4⟩, ⟨5⟩]⟩
          = RegistrarOutcome.ok f) :=
  ⟨claim_C9_registrar_arity.1 ⟨[⟨1⟩, ⟨2⟩, ⟨3⟩]⟩ (by decide) (by decide),
   claim_C9_registrar_arity.2.1 ⟨[⟨1⟩, ⟨2⟩, ⟨3⟩, ⟨4⟩]⟩ (Or.inl (by decide)),
   claim_C9_registrar_arity.2.2.1 ⟨[⟨1⟩, ⟨2⟩, ⟨3⟩, ⟨4⟩, ⟨5⟩, ⟨6⟩]⟩
     (by decide) (by decide),
   claim_C9_registrar_arity.2.2.2 ⟨[⟨1⟩, ⟨2⟩, ⟨3⟩, ⟨4⟩, ⟨5⟩]⟩ (Or.inr (by decide))⟩

/-- C10: the JSON sink's base64 encoder.  For every byte string `s`: the
output length is `4 * ⌈|s| / 3⌉`; the output is a run of characters from
the 64-character alphabet followed by at most two `'='` padding characters
at the end; standard base64 decoding of the output yields exactly `s`; and
the empty input yields the empty output. -/
theorem claim_C10_base64_encoder :
    (∀ s : List Nat, (encodeBase64 s).length = 4 * ((s.length + 2) / 3))
    ∧ (∀ s : List Nat, ∃ (body : List Char) (padLen : Nat), padLen ≤ 2
        ∧ encodeBase64 s = body ++ List.replicate padLen '='
        ∧ ∀ c ∈ body, c ∈ kAlphabet)
    ∧ (∀ s : List Nat, (∀ b ∈ s, b < 256) →
        decodeBase64 (encodeBase64 s) = some s)
    ∧ encodeBase64 [] = [] := by
  refine ⟨?_, ?_, ?_, rfl⟩
  · intro s
    unfold encodeBase64
    by_cases hs : s = []
    · subst hs; rfl
    · rw [if_neg hs]
      exact encodeChunks_length s
  · intro s
    unfold encodeBase64
    by_cases hs : s = []
    · subst hs
      exact ⟨[], 0, by omega, rfl, by simp⟩
    · rw [if_neg hs]
      exact encodeChunks_shape s
  · intro s hb
    unfold encodeBase64
    by_cases hs : s = []
    · subst hs; rfl
    · rw [if_neg hs]
      exact decode_encodeChunks s hb

/-- Witness for C10's round-trip component on a concrete byte string. -/
theorem claim_C10_base64_encoder_witness :
    (∀ b ∈ [77, 97, 110, 255, 0], b < 256)
    ∧ decodeBase64 (encodeBase64 [77, 97, 110, 255, 0])
        = some [77, 97, 110, 255, 0] :=
  ⟨by decide, claim_C10_base64_encoder.2.2.1 [77, 97, 110, 255, 0] (by decide)⟩

end MobilityNebula
